import Mathlib

/-!
Verification of the hotel-booking-form availability and date-validation core.

Shallow embedding of the TypeScript sources:
  - src/hooks/useAvailability.ts        (availability index)
  - src/app/hooks/useDateValidation.ts  (range validator)
  - the DatesPicker selection controller (handleRangeSelect)
  - src/data/roomsConfig.ts             (static room configuration)

JavaScript `Date` values at local midnight are modelled as absolute day
numbers (`Nat`): day 0 is January 1 of year 0 in the proleptic Gregorian
calendar.  `getTime` ordering and equality of such dates coincide with the
`Nat` ordering and equality of their absolute day numbers, and
`setDate(getDate() + 1)` is `+ 1`.  The accessors `getFullYear`, `getMonth`
(0-based) and `getDate` (1-based) are realised by the calendar conversion
`absToYmd`, and the constructor `new Date(y, m, d)` (with JS month overflow
normalisation) by `mkDate`.
-/

set_option maxRecDepth 40000

namespace HotelBooking

/-- Gregorian leap-year test (what JS `Date` uses). -/
def isLeap (y : Nat) : Bool :=
  (y % 4 == 0 && y % 100 != 0) || (y % 400 == 0)

/-- Length of the (0-based) month `m` of year `y`. -/
def monthLen (y m : Nat) : Nat :=
  if m = 1 then (if isLeap y then 29 else 28)
  else if m = 3 ∨ m = 5 ∨ m = 8 ∨ m = 10 then 30
  else 31

/-- Number of days of year `y`. -/
def daysInYear (y : Nat) : Nat :=
  if isLeap y then 366 else 365

/-- Days of year `y` that lie before (0-based) month `m`. -/
def daysBeforeMonth (y : Nat) : Nat → Nat
  | 0 => 0
  | m + 1 => daysBeforeMonth y m + monthLen y m

/-- Days lying before year `y` (counting from year 0). -/
def daysBeforeYear : Nat → Nat
  | 0 => 0
  | y + 1 => daysBeforeYear y + daysInYear y

/-- Calendar triple: year, 0-based month, 1-based day. -/
structure Ymd where
  year : Nat
  month : Nat
  day : Nat
deriving DecidableEq, Repr

/-- Absolute day number of a calendar triple (valid triples only;
the day is clamped at 1 from below by `Nat` subtraction). -/
def ymdToAbs (y m d : Nat) : Nat :=
  daysBeforeYear y + daysBeforeMonth y m + (d - 1)

/-- Find the year containing absolute day `n`, starting the search at year
`b` and peeling off one year length per step; the first argument is
structural fuel, always sufficient when it exceeds `n`. -/
def toYearGo : Nat → Nat → Nat → Nat × Nat
  | 0, b, n => (b, n)
  | fuel + 1, b, n =>
    if n < daysInYear b then (b, n)
    else toYearGo fuel (b + 1) (n - daysInYear b)

/-- Find the month of year `y` containing day-of-year offset `n`, starting
at month `b`; twelve units of fuel always suffice for an in-range offset. -/
def toMonthGo (y : Nat) : Nat → Nat → Nat → Nat × Nat
  | 0, b, n => (b, n)
  | fuel + 1, b, n =>
    if n < monthLen y b then (b, n)
    else toMonthGo y fuel (b + 1) (n - monthLen y b)

/-- Calendar triple of an absolute day number: day 0 is January 1 of year 0. -/
def absToYmd (n : Nat) : Ymd :=
  let yr := toYearGo (n + 1) 0 n
  let mr := toMonthGo yr.1 12 0 yr.2
  ⟨yr.1, mr.1, mr.2 + 1⟩

/-- JS `date.getFullYear()`. -/
def getFullYear (t : Nat) : Nat := (absToYmd t).year

/-- JS `date.getMonth()` (0-based). -/
def getMonth (t : Nat) : Nat := (absToYmd t).month

/-- JS `date.getDate()` (1-based day of month). -/
def getDate (t : Nat) : Nat := (absToYmd t).day

/-- JS `new Date(y, m, d)` for `d ≥ 1`: months ≥ 12 overflow into later
years exactly as the JS constructor normalises them. -/
def mkDate (y m d : Nat) : Nat :=
  ymdToAbs (y + m / 12) (m % 12) d

/-- JS `new Date(y, m, 0).getDate()`: the number of days of the month
preceding (0-based) month `m` of year `y`, i.e. of 1-based month `m`. -/
def daysInMonthJS (y m : Nat) : Nat :=
  monthLen (y + (m - 1) / 12) ((m - 1) % 12)

/-- A well-formed calendar triple. -/
def ValidYmd (x : Ymd) : Prop :=
  x.month ≤ 11 ∧ 1 ≤ x.day ∧ x.day ≤ monthLen x.year x.month

/-! ### Data model (src/types/availability.ts) -/

/-- One room's availability for one calendar month (`month` is 1-based). -/
structure RoomRecord where
  roomNumber : Nat
  roomName : String
  availableDates : List Nat
  occupiedDates : List Nat
  year : Nat
  month : Nat
  tabTitle : Option String
deriving DecidableEq, Repr

/-- The payload of `GET /api/availability`. -/
structure AvailabilityResponse where
  success : Bool
  data : Option (List RoomRecord)
  error : Option String
deriving DecidableEq, Repr

/-- `monthlyAvailability?.data`: the record list of a possibly-null snapshot. -/
def dataOf : Option AvailabilityResponse → Option (List RoomRecord)
  | none => none
  | some r => r.data

/-- An HTTP response as seen by `fetchMonthlyAvailability`: the transport
`ok` flag plus the parsed JSON body. -/
structure FetchResponse where
  ok : Bool
  body : AvailabilityResponse
deriving DecidableEq, Repr

/-- Result-processing of `fetchMonthlyAvailability` (src/hooks/useAvailability.ts
lines 10-33): a network failure (the `Except.error` case) or a response with
`!response.ok || !data.success` lands in the catch block, which stores `null`;
otherwise the parsed body is stored.  The function is total: no exception
escapes to the caller. -/
def fetchMonthlyAvailability (result : Except String FetchResponse) : Option AvailabilityResponse :=
  match result with
  | Except.error _ => none
  | Except.ok resp => if !resp.ok || !resp.body.success then none else some resp.body

structure GuestInfo where
  adults : Nat
  children : Nat
deriving DecidableEq, Repr

/-- react-day-picker's `DateRange`: both endpoints may be absent.  The
source fields are `from` and `to`; `from` is a Lean keyword, so they are
named `fromDate` and `toDate` here. -/
structure DateRange where
  fromDate : Option Nat
  toDate : Option Nat
deriving DecidableEq, Repr

structure RoomInfo where
  roomNumber : Nat
  roomName : String
deriving DecidableEq, Repr

/-- Static per-room metadata (src/data/roomsConfig.ts); only the fields the
core logic reads are modelled. -/
structure RoomConfig where
  roomNumber : Nat
  roomName : String
  maxPersons : Nat
deriving DecidableEq, Repr

/-- `getRoomConfig` from src/data/roomsConfig.ts: rooms 1-7, `null` otherwise. -/
def getRoomConfig (roomNumber : Nat) : Option RoomConfig :=
  if roomNumber = 1 then some ⟨1, "Кімната 1", 2⟩
  else if roomNumber = 2 then some ⟨2, "Кімната 2", 3⟩
  else if roomNumber = 3 then some ⟨3, "Кімната 3", 2⟩
  else if roomNumber = 4 then some ⟨4, "Кімната 4", 2⟩
  else if roomNumber = 5 then some ⟨5, "Кімната 5", 2⟩
  else if roomNumber = 6 then some ⟨6, "Кімната 6", 3⟩
  else if roomNumber = 7 then some ⟨7, "Mirador", 4⟩
  else none

/-- `!guestInfo || !roomConfig || roomConfig.maxPersons >= guestInfo.adults +
guestInfo.children` (used in src/hooks/useAvailability.ts lines 53-55 and
191-193). -/
def canAccommodate (guestInfo : Option GuestInfo) (roomNumber : Nat) : Bool :=
  match guestInfo with
  | none => true
  | some g =>
    match getRoomConfig roomNumber with
    | none => true
    | some roomConfig => decide (roomConfig.maxPersons ≥ g.adults + g.children)

/-- `monthlyAvailability.data.some(room => room.year === y && room.month === m
&& room.availableDates.includes(day))`: does at least one record for
(1-based) month `m` of year `y` list `day` as available? -/
def hasAvailableRoom (data : List RoomRecord) (y m day : Nat) : Bool :=
  data.any (fun room => room.year == y && room.month == m && room.availableDates.contains day)

/-- One night of occupancy; `month` is 1-based as in the TS `StayDate`. -/
structure StayDate where
  year : Nat
  month : Nat
  day : Nat
deriving DecidableEq, Repr

/-- The `StayDate` pushed for the date `t`:
`(getFullYear, getMonth + 1, getDate)`. -/
def toStayDate (t : Nat) : StayDate :=
  ⟨getFullYear t, getMonth t + 1, getDate t⟩

/-- The `while (currentDate.getTime() < endDateTime)` loop shared by
`isRangeValid` (useDateValidation.ts lines 15-30) and `getRoomsForDateRange`
(useAvailability.ts lines 136-151): the stay dates from `cur` up to but
excluding `endT`, advancing one day at a time. -/
def stayDatesGo : Nat → Nat → List StayDate
  | 0, _ => []
  | k + 1, cur => toStayDate cur :: stayDatesGo k (cur + 1)

/-- The stay-date list of the half-open range `[cur, endT)`: the while loop
runs once per day, i.e. `endT - cur` times (zero times when `endT ≤ cur`,
exactly as the `getTime` comparison stops it immediately). -/
def stayDatesList (cur endT : Nat) : List StayDate :=
  stayDatesGo (endT - cur) cur

/-! ### Availability index (src/hooks/useAvailability.ts) -/

/-- JS `Set.add` on a set represented as its insertion-ordered,
duplicate-free element list. -/
def addToSet (s : List Nat) (d : Nat) : List Nat :=
  if s.contains d then s else s ++ [d]

/-- The `availableDatesSet` accumulation shared by `getAvailableDatesForMonth`
(lines 40-62, with the party-size filter) and
`getCompletelyOccupiedDatesForMonth` (lines 72-86, without it — realised here
by passing `guestInfo = none`): union of the `availableDates` of the records
matching `(year, month)`, restricted to room 7 when `isMirador`. -/
def availableDaySetForMonth (data : List RoomRecord) (guestInfo : Option GuestInfo)
    (isMirador : Bool) (year month : Nat) : List Nat :=
  (data.filter (fun room => room.year == year && room.month == month)).foldl
    (fun s room =>
      if isMirador && room.roomNumber != 7 then s
      else if canAccommodate guestInfo room.roomNumber then
        room.availableDates.foldl addToSet s
      else s)
    []

/-- `getAvailableDatesForMonth(year, month)` (useAvailability.ts lines 37-65):
the available day-set mapped to `new Date(year, month - 1, day)`. -/
def getAvailableDatesForMonth (avail : Option AvailabilityResponse)
    (guestInfo : Option GuestInfo) (isMirador : Bool) (year month : Nat) : List Nat :=
  match dataOf avail with
  | none => []
  | some data =>
    (availableDaySetForMonth data guestInfo isMirador year month).map
      (fun day => mkDate year (month - 1) day)

/-- `getCompletelyOccupiedDatesForMonth(year, month)` (useAvailability.ts lines
68-97): the days `1..daysInMonth` missing from the unfiltered available
day-set, as `new Date(year, month - 1, day)`. -/
def getCompletelyOccupiedDatesForMonth (avail : Option AvailabilityResponse)
    (isMirador : Bool) (year month : Nat) : List Nat :=
  match dataOf avail with
  | none => []
  | some data =>
    let daysInMonth := daysInMonthJS year month
    let availableDatesSet := availableDaySetForMonth data none isMirador year month
    ((List.range' 1 daysInMonth).filter
        (fun day => !availableDatesSet.contains day)).map
      (fun day => mkDate year (month - 1) day)

/-- `getCompletelyOccupiedDates()` (useAvailability.ts lines 116-129): the
occupied dates of the displayed month and of the following month. -/
def getCompletelyOccupiedDates (avail : Option AvailabilityResponse)
    (isMirador : Bool) (currentMonth : Nat) : List Nat :=
  match dataOf avail with
  | none => []
  | some _ =>
    let currentYear := getFullYear currentMonth
    let currentMonthNum := getMonth currentMonth + 1
    let nextMonthDate := mkDate currentYear currentMonthNum 1
    let nextYear := getFullYear nextMonthDate
    let nextMonthNum := getMonth nextMonthDate + 1
    getCompletelyOccupiedDatesForMonth avail isMirador currentYear currentMonthNum
      ++ getCompletelyOccupiedDatesForMonth avail isMirador nextYear nextMonthNum

/-- JS `Map.set` on a map represented as its insertion-ordered key-value
list: replace the value of an existing key in place, otherwise append. -/
def mapSet (m : List (Nat × RoomInfo)) (k : Nat) (v : RoomInfo) : List (Nat × RoomInfo) :=
  if m.any (fun p => p.1 == k) then
    m.map (fun p => if p.1 == k then (k, v) else p)
  else m ++ [(k, v)]

/-- `getRoomsForDateRange(range)` (useAvailability.ts lines 132-201): the rooms
(restricted to room 7 when `isMirador`) whose record for every stay date's
`(year, month)` exists and lists that day, intersected with the party-size
fit.  A missing `range.to` means a one-night stay ending the next day. -/
def getRoomsForDateRange (avail : Option AvailabilityResponse)
    (guestInfo : Option GuestInfo) (isMirador : Bool)
    (range : Option DateRange) : List RoomInfo :=
  match dataOf avail, range with
  | some data, some ⟨some rangeFrom, rangeTo⟩ =>
    let endDateTime := match rangeTo with
      | some t => t
      | none => rangeFrom + 1
    let stayDates := stayDatesList rangeFrom endDateTime
    let allRooms := data.foldl
      (fun acc room =>
        if isMirador && room.roomNumber != 7 then acc
        else mapSet acc room.roomNumber ⟨room.roomNumber, room.roomName⟩)
      []
    (allRooms.filter (fun p =>
        stayDates.all (fun stayDate =>
          match data.find? (fun room =>
              room.roomNumber == p.1 && room.year == stayDate.year
                && room.month == stayDate.month) with
          | none => false
          | some roomDataForDate => roomDataForDate.availableDates.contains stayDate.day)
        && canAccommodate guestInfo p.1)).map
      (fun p => p.2)
  | _, _ => []

/-! ### Range validator (src/app/hooks/useDateValidation.ts) -/

/-- `isRangeValid(startDate, endDate)` (useDateValidation.ts lines 11-45):
with a null snapshot `false`; otherwise every stay date of the half-open
range `[startDate, endDate)` must have at least one available room.  The
source builds the stay-date list and then scans it with an early `return
false`; that scan is the `List.all` below. -/
def isRangeValid (avail : Option AvailabilityResponse) (startDate endDate : Nat) : Bool :=
  match dataOf avail with
  | none => false
  | some data =>
    (stayDatesList startDate endDate).all
      (fun stayDate => hasAvailableRoom data stayDate.year stayDate.month stayDate.day)

/-- One of the two identical `for (let day = ...; day <= ...; day++)` scans of
`findFirstAllowedCheckoutDate` (useDateValidation.ts lines 59-74 and 83-99):
walk the day numbers `day..stop` of (0-based) month `m` of year `y` and
return the first `currentDate = new Date(y, m, day)` with no available room,
reading the record key back through the date's accessors as the source does. -/
def scanMonthGo (data : List RoomRecord) (y m : Nat) : Nat → Nat → Option Nat
  | 0, _ => none
  | k + 1, day =>
    let currentDate := mkDate y m day
    if !hasAvailableRoom data (getFullYear currentDate) (getMonth currentDate + 1)
        (getDate currentDate) then
      some currentDate
    else scanMonthGo data y m k (day + 1)

/-- The scan from `day` to `stop` inclusive: the for loop runs
`stop + 1 - day` times (zero times when `day > stop`). -/
def scanMonth (data : List RoomRecord) (y m : Nat) (day stop : Nat) : Option Nat :=
  scanMonthGo data y m (stop + 1 - day) day

/-- `findFirstAllowedCheckoutDate(startDate)` (useDateValidation.ts lines
48-103): scan the rest of the check-in month from the day after check-in,
then — only when `startMonth < 11`, i.e. the check-in month is not December —
the following month, for the first completely occupied date. -/
def findFirstAllowedCheckoutDate (avail : Option AvailabilityResponse)
    (startDate : Nat) : Option Nat :=
  match dataOf avail with
  | none => none
  | some data =>
    let startYear := getFullYear startDate
    let startMonth := getMonth startDate
    let startDay := getDate startDate
    let daysInCurrentMonth := daysInMonthJS startYear (startMonth + 1)
    match scanMonth data startYear startMonth (startDay + 1) daysInCurrentMonth with
    | some d => some d
    | none =>
      if startMonth < 11 then
        let nextMonth := startMonth + 1
        let daysInNextMonth := daysInMonthJS startYear (nextMonth + 1)
        match scanMonth data startYear nextMonth 1 daysInNextMonth with
        | some d => some d
        | none => none
      else none

/-- `getSmartDisabledDates()` (useDateValidation.ts lines 106-213), for the
displayed month `currentMonth`: while a range is open, disable the dates
before check-in, check-in itself, and everything after the first allowed
checkout boundary, across the displayed month and the next one, with the
month-by-month case analysis of the source. -/
def getSmartDisabledDates (avail : Option AvailabilityResponse)
    (currentMonth : Nat) (selectedRange : Option DateRange) : List Nat :=
  match dataOf avail with
  | none => []
  | some _ =>
    let year := getFullYear currentMonth
    let month := getMonth currentMonth
    match selectedRange with
    | some ⟨some selFrom, none⟩ =>
      let selectedDay := getDate selFrom
      let selectedMonth := getMonth selFrom
      let selectedYear := getFullYear selFrom
      let allowedCheckoutDate := findFirstAllowedCheckoutDate avail selFrom
      let currentPart :=
        if selectedMonth == month && selectedYear == year then
          let daysInMonth := daysInMonthJS year (month + 1)
          (List.range' 1 (selectedDay - 1)).map (fun day => mkDate year month day)
            ++ [mkDate year month selectedDay]
            ++ (match allowedCheckoutDate with
                | some a =>
                  if getMonth a == month && getFullYear a == year then
                    (List.range' (getDate a + 1) (daysInMonth - getDate a)).map
                      (fun day => mkDate year month day)
                  else []
                | none => [])
        else
          (List.range' 1 (daysInMonthJS year (month + 1))).map
            (fun day => mkDate year month day)
      let nextPart :=
        if month + 1 ≤ 11 then
          let nextYear := year
          let nextMonth := month + 1
          let nextMonthDays := daysInMonthJS nextYear (nextMonth + 1)
          if selectedMonth == month && selectedYear == year then
            match allowedCheckoutDate with
            | some a =>
              if getMonth a == nextMonth && getFullYear a == nextYear then
                (List.range' (getDate a + 1) (nextMonthDays - getDate a)).map
                  (fun day => mkDate nextYear nextMonth day)
              else if getMonth a == month && getFullYear a == year then
                (List.range' 1 nextMonthDays).map (fun day => mkDate nextYear nextMonth day)
              else []
            | none => []
          else if selectedMonth == nextMonth && selectedYear == nextYear then
            (List.range' 1 (selectedDay - 1)).map (fun day => mkDate nextYear nextMonth day)
              ++ [mkDate nextYear nextMonth selectedDay]
              ++ (match allowedCheckoutDate with
                  | some a =>
                    if getMonth a == nextMonth && getFullYear a == nextYear then
                      (List.range' (getDate a + 1) (nextMonthDays - getDate a)).map
                        (fun day => mkDate nextYear nextMonth day)
                    else []
                  | none => [])
          else
            (List.range' 1 nextMonthDays).map (fun day => mkDate nextYear nextMonth day)
        else []
      currentPart ++ nextPart
    | _ => []

/-- `getAllDisabledDates()` (useDateValidation.ts lines 216-241): occupied
plus smart-disabled dates; while a range is open the check-in date, the next
day, and the first allowed checkout date are filtered out. -/
def getAllDisabledDates (avail : Option AvailabilityResponse) (isMirador : Bool)
    (currentMonth : Nat) (selectedRange : Option DateRange) : List Nat :=
  let completelyOccupied := getCompletelyOccupiedDates avail isMirador currentMonth
  let smartDisabled := getSmartDisabledDates avail currentMonth selectedRange
  match selectedRange with
  | some ⟨some startDate, none⟩ =>
    let nextDay := startDate + 1
    let allowedCheckoutDate := findFirstAllowedCheckoutDate avail startDate
    (completelyOccupied ++ smartDisabled).filter (fun date =>
      date != startDate && date != nextDay &&
        (match allowedCheckoutDate with
         | some a => date != a
         | none => true))
  | _ => completelyOccupied ++ smartDisabled

/-! ### Selection controller (DatesPicker `handleRangeSelect`) -/

/-- `handleRangeSelect(range)` of the DatesPicker container as a pure
transition: given the snapshot, the current `selectedRange` state and the
raw picker event, return `none` when the pick is silently ignored (no state
change, no callback) and `some newState` when `setSelectedRange(newState)`
and `onRangeSelect(newState)` fire.  `Math.ceil((to - from) / 86400000)` on
midnight dates is exact, and a negative difference compares below 1 exactly
as the clamped `Nat` subtraction does. -/
def handleRangeSelect (avail : Option AvailabilityResponse)
    (selectedRange : Option DateRange) (range : Option DateRange) :
    Option (Option DateRange) :=
  match range with
  | none => some none
  | some r =>
    if (match selectedRange with
        | some s => s.fromDate.isSome && s.toDate.isSome
        | none => false) then
      some none
    else
      match r.fromDate, r.toDate with
      | some f, some t =>
        if f == t then some (some ⟨some f, none⟩)
        else
          let daysDiff := t - f
          if daysDiff < 1 then none
          else
            let stayEndDate := t - 1
            if daysDiff > 1 && !isRangeValid avail f stayEndDate then none
            else some (some ⟨some f, some t⟩)
      | some f, none => some (some ⟨some f, none⟩)
      | none, _ => none

/-! ### Specification-side definitions -/

/-- A date on which no room is available, read through the date accessors
exactly as the scans of `findFirstAllowedCheckoutDate` do. -/
def isOccupiedDate (data : List RoomRecord) (t : Nat) : Bool :=
  !hasAvailableRoom data (getFullYear t) (getMonth t + 1) (getDate t)

/-- The last date the boundary search of `findFirstAllowedCheckoutDate` can
visit: the end of the month after the check-in month, except that a December
check-in (`startMonth < 11` fails) confines the search to December itself. -/
def scanWindowEnd (startDate : Nat) : Nat :=
  let y := getFullYear startDate
  let m := getMonth startDate
  if m < 11 then ymdToAbs y (m + 1) (monthLen y (m + 1))
  else ymdToAbs y 11 31

/-! ### Helper lemmas: the calendar -/

theorem monthLen_pos (y m : Nat) : 0 < monthLen y m := by
  unfold monthLen
  split
  · split <;> omega
  · split <;> omega

theorem daysInYear_pos (y : Nat) : 0 < daysInYear y := by
  unfold daysInYear
  split <;> omega

theorem daysBeforeMonth_twelve (y : Nat) : daysBeforeMonth y 12 = daysInYear y := by
  cases h : isLeap y <;>
    simp [daysBeforeMonth, monthLen, daysInYear, h]

theorem daysBeforeMonth_mono (y : Nat) {m m' : Nat} (h : m ≤ m') :
    daysBeforeMonth y m ≤ daysBeforeMonth y m' := by
  induction m' with
  | zero =>
    have hm : m = 0 := Nat.le_zero.mp h
    simp [hm]
  | succ k ih =>
    rcases Nat.lt_or_ge m (k + 1) with hlt | hge
    · have := ih (by omega)
      have hp := monthLen_pos y k
      show daysBeforeMonth y m ≤ daysBeforeMonth y k + monthLen y k
      omega
    · have hm : m = k + 1 := by omega
      rw [hm]

theorem daysBeforeYear_mono {y y' : Nat} (h : y ≤ y') :
    daysBeforeYear y ≤ daysBeforeYear y' := by
  induction y' with
  | zero =>
    have h0 : y = 0 := Nat.le_zero.mp h
    simp [h0]
  | succ k ih =>
    rcases Nat.lt_or_ge y (k + 1) with hlt | hge
    · have := ih (by omega)
      have hp := daysInYear_pos k
      show daysBeforeYear y ≤ daysBeforeYear k + daysInYear k
      omega
    · have hy : y = k + 1 := by omega
      rw [hy]

theorem daysBeforeMonth_succ_le (y m : Nat) (hm : m ≤ 11) :
    daysBeforeMonth y m + monthLen y m ≤ daysInYear y := by
  have h1 : daysBeforeMonth y (m + 1) ≤ daysBeforeMonth y 12 :=
    daysBeforeMonth_mono y (by omega)
  have h2 := daysBeforeMonth_twelve y
  have h3 : daysBeforeMonth y (m + 1) = daysBeforeMonth y m + monthLen y m := rfl
  omega

theorem ymdToAbs_succ_day (y m d : Nat) (hd : 1 ≤ d) :
    ymdToAbs y m (d + 1) = ymdToAbs y m d + 1 := by
  unfold ymdToAbs
  omega

theorem ymdToAbs_next_month (y m : Nat) :
    ymdToAbs y (m + 1) 1 = ymdToAbs y m (monthLen y m) + 1 := by
  have hp := monthLen_pos y m
  have h1 : daysBeforeMonth y (m + 1) = daysBeforeMonth y m + monthLen y m := rfl
  unfold ymdToAbs
  omega

theorem monthLen_dec (y : Nat) : monthLen y 11 = 31 := by
  unfold monthLen
  norm_num

theorem ymdToAbs_next_year (y : Nat) :
    ymdToAbs (y + 1) 0 1 = ymdToAbs y 11 31 + 1 := by
  have h1 : daysBeforeYear (y + 1) = daysBeforeYear y + daysInYear y := rfl
  have h2 := daysBeforeMonth_twelve y
  have h3 : daysBeforeMonth y 12 = daysBeforeMonth y 11 + monthLen y 11 := rfl
  have h4 := monthLen_dec y
  have h5 : daysBeforeMonth (y + 1) 0 = 0 := rfl
  unfold ymdToAbs
  omega

/-- Sum of year lengths of the `k` years starting at year `b`. -/
def sumDaysFrom : Nat → Nat → Nat
  | _, 0 => 0
  | b, k + 1 => daysInYear b + sumDaysFrom (b + 1) k

theorem daysBeforeYear_eq_sum (y : Nat) : daysBeforeYear y = sumDaysFrom 0 y := by
  have hsnoc : ∀ k b : Nat, sumDaysFrom b (k + 1) = sumDaysFrom b k + daysInYear (b + k) := by
    intro k
    induction k with
    | zero => intro b; simp [sumDaysFrom]
    | succ k ih =>
      intro b
      show daysInYear b + sumDaysFrom (b + 1) (k + 1)
          = daysInYear b + sumDaysFrom (b + 1) k + daysInYear (b + (k + 1))
      rw [ih (b + 1)]
      have hidx : b + 1 + k = b + (k + 1) := by omega
      rw [hidx]
      omega
  induction y with
  | zero => rfl
  | succ k ih =>
    show daysBeforeYear k + daysInYear k = sumDaysFrom 0 (k + 1)
    rw [hsnoc k 0, ih]
    simp only [Nat.zero_add]

/-- Sum of month lengths of the `k` months of year `y` starting at month `b`. -/
def sumMonthsFrom (y : Nat) : Nat → Nat → Nat
  | _, 0 => 0
  | b, k + 1 => monthLen y b + sumMonthsFrom y (b + 1) k

theorem daysBeforeMonth_eq_sum (y m : Nat) : daysBeforeMonth y m = sumMonthsFrom y 0 m := by
  have hsnoc : ∀ k b : Nat,
      sumMonthsFrom y b (k + 1) = sumMonthsFrom y b k + monthLen y (b + k) := by
    intro k
    induction k with
    | zero => intro b; simp [sumMonthsFrom]
    | succ k ih =>
      intro b
      show monthLen y b + sumMonthsFrom y (b + 1) (k + 1)
          = monthLen y b + sumMonthsFrom y (b + 1) k + monthLen y (b + (k + 1))
      rw [ih (b + 1)]
      have hidx : b + 1 + k = b + (k + 1) := by omega
      rw [hidx]
      omega
  induction m with
  | zero => rfl
  | succ k ih =>
    show daysBeforeMonth y k + monthLen y k = sumMonthsFrom y 0 (k + 1)
    rw [hsnoc k 0, ih]
    simp only [Nat.zero_add]

theorem toYearGo_spec : ∀ fuel b n : Nat, n < fuel → ∃ k : Nat,
    toYearGo fuel b n = (b + k, n - sumDaysFrom b k) ∧ sumDaysFrom b k ≤ n ∧
      n - sumDaysFrom b k < daysInYear (b + k) := by
  intro fuel
  induction fuel with
  | zero => intro b n h; omega
  | succ fuel ih =>
    intro b n h
    by_cases hlt : n < daysInYear b
    · refine ⟨0, ?_, ?_, ?_⟩ <;> simp [toYearGo, sumDaysFrom, hlt]
    · have hpos := daysInYear_pos b
      obtain ⟨k, hk, hle, hrem⟩ := ih (b + 1) (n - daysInYear b) (by omega)
      refine ⟨k + 1, ?_, ?_, ?_⟩
      · show (if n < daysInYear b then (b, n)
            else toYearGo fuel (b + 1) (n - daysInYear b)) = _
        rw [if_neg hlt, hk]
        have h1 : b + 1 + k = b + (k + 1) := by omega
        have h2 : n - daysInYear b - sumDaysFrom (b + 1) k = n - sumDaysFrom b (k + 1) := by
          simp only [sumDaysFrom]
          omega
        rw [h1, h2]
      · show daysInYear b + sumDaysFrom (b + 1) k ≤ n
        omega
      · show n - (daysInYear b + sumDaysFrom (b + 1) k) < daysInYear (b + (k + 1))
        have h1 : b + (k + 1) = b + 1 + k := by omega
        rw [h1]
        omega

theorem toMonthGo_spec (y : Nat) : ∀ fuel b n : Nat, n < sumMonthsFrom y b fuel →
    ∃ k : Nat, k < fuel ∧
      toMonthGo y fuel b n = (b + k, n - sumMonthsFrom y b k) ∧
      sumMonthsFrom y b k ≤ n ∧ n - sumMonthsFrom y b k < monthLen y (b + k) := by
  intro fuel
  induction fuel with
  | zero =>
    intro b n h
    simp [sumMonthsFrom] at h
  | succ fuel ih =>
    intro b n h
    by_cases hlt : n < monthLen y b
    · refine ⟨0, by omega, ?_, ?_, ?_⟩ <;> simp [toMonthGo, sumMonthsFrom, hlt]
    · have hpos := monthLen_pos y b
      have hnext : n - monthLen y b < sumMonthsFrom y (b + 1) fuel := by
        have hh : sumMonthsFrom y b (fuel + 1)
            = monthLen y b + sumMonthsFrom y (b + 1) fuel := rfl
        omega
      obtain ⟨k, hkf, hk, hle, hrem⟩ := ih (b + 1) (n - monthLen y b) hnext
      refine ⟨k + 1, by omega, ?_, ?_, ?_⟩
      · show (if n < monthLen y b then (b, n)
            else toMonthGo y fuel (b + 1) (n - monthLen y b)) = _
        rw [if_neg hlt, hk]
        have h1 : b + 1 + k = b + (k + 1) := by omega
        have h2 : n - monthLen y b - sumMonthsFrom y (b + 1) k
            = n - sumMonthsFrom y b (k + 1) := by
          simp only [sumMonthsFrom]
          omega
        rw [h1, h2]
      · show monthLen y b + sumMonthsFrom y (b + 1) k ≤ n
        omega
      · show n - (monthLen y b + sumMonthsFrom y (b + 1) k) < monthLen y (b + (k + 1))
        have h1 : b + (k + 1) = b + 1 + k := by omega
        rw [h1]
        omega

theorem absToYmd_eq_parts (n : Nat) :
    absToYmd n = ⟨(toYearGo (n + 1) 0 n).1,
      (toMonthGo (toYearGo (n + 1) 0 n).1 12 0 (toYearGo (n + 1) 0 n).2).1,
      (toMonthGo (toYearGo (n + 1) 0 n).1 12 0 (toYearGo (n + 1) 0 n).2).2 + 1⟩ := rfl

theorem absToYmd_valid_and_round (n : Nat) :
    ValidYmd (absToYmd n) ∧
      ymdToAbs (absToYmd n).year (absToYmd n).month (absToYmd n).day = n := by
  obtain ⟨ky, hky, hley, hremy⟩ := toYearGo_spec (n + 1) 0 n (by omega)
  simp only [Nat.zero_add] at hky hremy
  have hsum12 : sumMonthsFrom ky 0 12 = daysInYear ky := by
    rw [← daysBeforeMonth_eq_sum]
    exact daysBeforeMonth_twelve ky
  obtain ⟨km, hkmf, hkm, hlem, hremm⟩ :=
    toMonthGo_spec ky 12 0 (n - sumDaysFrom 0 ky) (by omega)
  simp only [Nat.zero_add] at hkm hremm
  have habs : absToYmd n
      = ⟨ky, km, (n - sumDaysFrom 0 ky) - sumMonthsFrom ky 0 km + 1⟩ := by
    rw [absToYmd_eq_parts, hky]
    simp only [hkm]
  rw [habs]
  refine ⟨⟨?_, ?_, ?_⟩, ?_⟩
  · show km ≤ 11
    omega
  · show 1 ≤ (n - sumDaysFrom 0 ky) - sumMonthsFrom ky 0 km + 1
    omega
  · show (n - sumDaysFrom 0 ky) - sumMonthsFrom ky 0 km + 1 ≤ monthLen ky km
    omega
  · show daysBeforeYear ky + daysBeforeMonth ky km
        + ((n - sumDaysFrom 0 ky) - sumMonthsFrom ky 0 km + 1 - 1) = n
    rw [daysBeforeYear_eq_sum, daysBeforeMonth_eq_sum]
    omega

theorem absToYmd_valid (n : Nat) : ValidYmd (absToYmd n) :=
  (absToYmd_valid_and_round n).1

theorem ymdToAbs_absToYmd (n : Nat) :
    ymdToAbs (absToYmd n).year (absToYmd n).month (absToYmd n).day = n :=
  (absToYmd_valid_and_round n).2

theorem ymdToAbs_lt_next_year (y m d : Nat) (hm : m ≤ 11) (hd2 : d ≤ monthLen y m) :
    ymdToAbs y m d < daysBeforeYear (y + 1) := by
  have h1 := daysBeforeMonth_succ_le y m hm
  have hp := monthLen_pos y m
  show daysBeforeYear y + daysBeforeMonth y m + (d - 1) < daysBeforeYear y + daysInYear y
  omega

theorem daysBeforeYear_le_ymdToAbs (y m d : Nat) :
    daysBeforeYear y ≤ ymdToAbs y m d := by
  unfold ymdToAbs
  omega

theorem ymdToAbs_inj (x x' : Ymd) (hx : ValidYmd x) (hx' : ValidYmd x')
    (h : ymdToAbs x.year x.month x.day = ymdToAbs x'.year x'.month x'.day) :
    x = x' := by
  obtain ⟨hm, hd1, hd2⟩ := hx
  obtain ⟨hm', hd1', hd2'⟩ := hx'
  have hyy : x.year = x'.year := by
    by_contra hne
    rcases Nat.lt_or_ge x.year x'.year with hlt | hge
    · have h1 := ymdToAbs_lt_next_year x.year x.month x.day hm hd2
      have h2 := daysBeforeYear_mono (show x.year + 1 ≤ x'.year by omega)
      have h3 := daysBeforeYear_le_ymdToAbs x'.year x'.month x'.day
      omega
    · have h1 := ymdToAbs_lt_next_year x'.year x'.month x'.day hm' hd2'
      have h2 := daysBeforeYear_mono (show x'.year + 1 ≤ x.year by omega)
      have h3 := daysBeforeYear_le_ymdToAbs x.year x.month x.day
      omega
  have hmm : x.month = x'.month := by
    by_contra hne
    unfold ymdToAbs at h
    rw [← hyy] at h
    rcases Nat.lt_or_ge x.month x'.month with hlt | hge
    · have h1 : daysBeforeMonth x.year (x.month + 1)
          = daysBeforeMonth x.year x.month + monthLen x.year x.month := rfl
      have h2 := daysBeforeMonth_mono x.year (show x.month + 1 ≤ x'.month by omega)
      omega
    · have hlt' : x'.month < x.month := by omega
      have h1 : daysBeforeMonth x.year (x'.month + 1)
          = daysBeforeMonth x.year x'.month + monthLen x.year x'.month := rfl
      have h2 := daysBeforeMonth_mono x.year (show x'.month + 1 ≤ x.month by omega)
      rw [← hyy] at hd2'
      omega
  have hdd : x.day = x'.day := by
    unfold ymdToAbs at h
    rw [← hyy, ← hmm] at h
    omega
  have hfin : (⟨x.year, x.month, x.day⟩ : Ymd) = ⟨x'.year, x'.month, x'.day⟩ := by
    rw [hyy, hmm, hdd]
  exact hfin

theorem absToYmd_ymdToAbs (y m d : Nat) (hm : m ≤ 11) (hd1 : 1 ≤ d)
    (hd2 : d ≤ monthLen y m) : absToYmd (ymdToAbs y m d) = ⟨y, m, d⟩ := by
  apply ymdToAbs_inj _ _ (absToYmd_valid _) ⟨hm, hd1, hd2⟩
  rw [ymdToAbs_absToYmd]

theorem absToYmd_spec (n : Nat) :
    ymdToAbs (absToYmd n).year (absToYmd n).month (absToYmd n).day = n ∧
      (absToYmd n).month ≤ 11 ∧ 1 ≤ (absToYmd n).day ∧
      (absToYmd n).day ≤ monthLen (absToYmd n).year (absToYmd n).month :=
  ⟨ymdToAbs_absToYmd n, (absToYmd_valid n).1, (absToYmd_valid n).2.1,
    (absToYmd_valid n).2.2⟩

theorem mkDate_eq_ymdToAbs (y m d : Nat) (hm : m ≤ 11) : mkDate y m d = ymdToAbs y m d := by
  unfold mkDate
  have h1 : m / 12 = 0 := Nat.div_eq_of_lt (by omega)
  have h2 : m % 12 = m := Nat.mod_eq_of_lt (by omega)
  rw [h1, h2, Nat.add_zero]

theorem absToYmd_mkDate (y m d : Nat) (hm : m ≤ 11) (hd1 : 1 ≤ d) (hd2 : d ≤ monthLen y m) :
    absToYmd (mkDate y m d) = ⟨y, m, d⟩ := by
  rw [mkDate_eq_ymdToAbs y m d hm]
  exact absToYmd_ymdToAbs y m d hm hd1 hd2

theorem getFullYear_mkDate (y m d : Nat) (hm : m ≤ 11) (hd1 : 1 ≤ d) (hd2 : d ≤ monthLen y m) :
    getFullYear (mkDate y m d) = y := by
  unfold getFullYear
  rw [absToYmd_mkDate y m d hm hd1 hd2]

theorem getMonth_mkDate (y m d : Nat) (hm : m ≤ 11) (hd1 : 1 ≤ d) (hd2 : d ≤ monthLen y m) :
    getMonth (mkDate y m d) = m := by
  unfold getMonth
  rw [absToYmd_mkDate y m d hm hd1 hd2]

theorem getDate_mkDate (y m d : Nat) (hm : m ≤ 11) (hd1 : 1 ≤ d) (hd2 : d ≤ monthLen y m) :
    getDate (mkDate y m d) = d := by
  unfold getDate
  rw [absToYmd_mkDate y m d hm hd1 hd2]

/-! ### Helper lemmas: the program -/

theorem stayDatesGo_eq (k : Nat) : ∀ a : Nat,
    stayDatesGo k a = (List.range' a k).map toStayDate := by
  induction k with
  | zero => intro a; rfl
  | succ n ih =>
    intro a
    rw [List.range'_succ]
    show toStayDate a :: stayDatesGo n (a + 1) = _
    rw [List.map_cons, ih (a + 1)]

/-- The stay-date loop enumerates exactly the dates of `[a, b)`. -/
theorem stayDatesList_eq_range' (a b : Nat) :
    stayDatesList a b = (List.range' a (b - a)).map toStayDate :=
  stayDatesGo_eq (b - a) a

theorem mem_stayDatesList (a b : Nat) (sd : StayDate) :
    sd ∈ stayDatesList a b ↔ ∃ t : Nat, a ≤ t ∧ t < b ∧ sd = toStayDate t := by
  rw [stayDatesList_eq_range']
  simp only [List.mem_map, List.mem_range'_1]
  constructor
  · rintro ⟨t, ⟨h1, h2⟩, h3⟩
    exact ⟨t, h1, by omega, h3.symm⟩
  · rintro ⟨t, h1, h2, h3⟩
    exact ⟨t, ⟨h1, by omega⟩, h3.symm⟩

/-- A zero- or negative-length period produces no stay dates, so the scan of
`isRangeValid` is vacuous and it returns `true` on any non-null snapshot. -/
theorem isRangeValid_of_le (success : Bool) (err : Option String)
    (data : List RoomRecord) (s e : Nat) (h : e ≤ s) :
    isRangeValid (some ⟨success, some data, err⟩) s e = true := by
  show (stayDatesGo (e - s) s).all _ = true
  have h0 : e - s = 0 := by omega
  rw [h0]
  rfl

/-- `isRangeValid` on a non-null snapshot checks exactly the dates of the
half-open interval. -/
theorem isRangeValid_iff_forall (success : Bool) (err : Option String)
    (data : List RoomRecord) (s e : Nat) :
    isRangeValid (some ⟨success, some data, err⟩) s e = true ↔
      ∀ t : Nat, s ≤ t → t < e →
        hasAvailableRoom data (getFullYear t) (getMonth t + 1) (getDate t) = true := by
  show (stayDatesList s e).all
      (fun stayDate => hasAvailableRoom data stayDate.year stayDate.month stayDate.day) = true ↔ _
  rw [List.all_eq_true]
  constructor
  · intro hall t h1 h2
    exact hall (toStayDate t) ((mem_stayDatesList s e (toStayDate t)).mpr ⟨t, h1, h2, rfl⟩)
  · intro hfor sd hsd
    obtain ⟨t, h1, h2, h3⟩ := (mem_stayDatesList s e sd).mp hsd
    rw [h3]
    exact hfor t h1 h2

theorem daysInMonthJS_succ (y m : Nat) (hm : m ≤ 11) :
    daysInMonthJS y (m + 1) = monthLen y m := by
  unfold daysInMonthJS
  have h1 : m + 1 - 1 = m := by omega
  rw [h1, Nat.div_eq_of_lt (by omega), Nat.mod_eq_of_lt (by omega), Nat.add_zero]

theorem ymdToAbs_add_day (y m d k : Nat) (hd : 1 ≤ d) :
    ymdToAbs y m (d + k) = ymdToAbs y m d + k := by
  unfold ymdToAbs
  omega

theorem mkDate_succ_day (y m d : Nat) (hd : 1 ≤ d) :
    mkDate y m (d + 1) = mkDate y m d + 1 := by
  unfold mkDate
  exact ymdToAbs_succ_day _ _ d hd

theorem scanMonthGo_eq_find? (data : List RoomRecord) (y m : Nat) (hm : m ≤ 11)
    (stop : Nat) (hstop : stop ≤ monthLen y m) : ∀ n day : Nat, 1 ≤ day →
    stop + 1 - day = n →
    scanMonthGo data y m n day =
      (List.range' (mkDate y m day) n).find? (isOccupiedDate data) := by
  intro n
  induction n with
  | zero => intro day h1 h2; rfl
  | succ k ih =>
    intro day h1 h2
    have hds : day ≤ stop := by omega
    have hvalid : day ≤ monthLen y m := le_trans hds hstop
    have hgy := getFullYear_mkDate y m day hm h1 hvalid
    have hgm := getMonth_mkDate y m day hm h1 hvalid
    have hgd := getDate_mkDate y m day hm h1 hvalid
    show (if (!hasAvailableRoom data (getFullYear (mkDate y m day))
        (getMonth (mkDate y m day) + 1) (getDate (mkDate y m day))) = true then
        some (mkDate y m day)
      else scanMonthGo data y m k (day + 1)) = _
    simp only [hgy, hgm, hgd]
    rw [List.range'_succ]
    cases hocc : hasAvailableRoom data y (m + 1) day with
    | true =>
      have hq : isOccupiedDate data (mkDate y m day) = false := by
        unfold isOccupiedDate
        rw [hgy, hgm, hgd, hocc]
        rfl
      rw [List.find?_cons_of_neg _ (by rw [hq]; simp)]
      show scanMonthGo data y m k (day + 1) = _
      rw [← mkDate_succ_day y m day h1]
      exact ih (day + 1) (by omega) (by omega)
    | false =>
      have hq : isOccupiedDate data (mkDate y m day) = true := by
        unfold isOccupiedDate
        rw [hgy, hgm, hgd, hocc]
        rfl
      rw [List.find?_cons_of_pos _ hq]
      rfl

theorem scanMonth_eq_find? (data : List RoomRecord) (y m : Nat) (hm : m ≤ 11) (stop : Nat)
    (hstop : stop ≤ monthLen y m) : ∀ n day : Nat, 1 ≤ day → stop + 1 - day = n →
    scanMonth data y m day stop =
      (List.range' (mkDate y m day) n).find? (isOccupiedDate data) := by
  intro n day h1 h2
  show scanMonthGo data y m (stop + 1 - day) day = _
  rw [h2]
  exact scanMonthGo_eq_find? data y m hm stop hstop n day h1 h2

theorem findFirstAllowedCheckoutDate_flat (success : Bool) (err : Option String)
    (data : List RoomRecord) (startDate : Nat) :
    findFirstAllowedCheckoutDate (some ⟨success, some data, err⟩) startDate =
      (List.range' (startDate + 1) (scanWindowEnd startDate - startDate)).find?
        (isOccupiedDate data) := by
  obtain ⟨habs, hm, hd1, hd2⟩ := absToYmd_spec startDate
  set y := (absToYmd startDate).year with hy
  set m := (absToYmd startDate).month with hmdef
  set d := (absToYmd startDate).day with hddef
  have hLHS : findFirstAllowedCheckoutDate (some ⟨success, some data, err⟩) startDate =
      (match scanMonth data y m (d + 1) (daysInMonthJS y (m + 1)) with
       | some dd => some dd
       | none =>
         if m < 11 then
           match scanMonth data y (m + 1) 1 (daysInMonthJS y (m + 2)) with
           | some dd => some dd
           | none => none
         else none) := rfl
  have hdim : daysInMonthJS y (m + 1) = monthLen y m := daysInMonthJS_succ y m hm
  have hmk1 : mkDate y m (d + 1) = startDate + 1 := by
    rw [mkDate_eq_ymdToAbs y m (d + 1) hm, ymdToAbs_succ_day y m d hd1, habs]
  have hscan1 : scanMonth data y m (d + 1) (monthLen y m) =
      (List.range' (startDate + 1) (monthLen y m - d)).find? (isOccupiedDate data) := by
    rw [scanMonth_eq_find? data y m hm (monthLen y m) (le_refl _) (monthLen y m - d)
      (d + 1) (by omega) (by omega)]
    rw [hmk1]
  have hlast : ymdToAbs y m (monthLen y m) = startDate + (monthLen y m - d) := by
    have hstep := ymdToAbs_add_day y m d (monthLen y m - d) hd1
    rw [habs] at hstep
    have hdd : d + (monthLen y m - d) = monthLen y m := by omega
    rw [hdd] at hstep
    exact hstep
  rw [hLHS, hdim, hscan1]
  by_cases hm11 : m < 11
  · have hm1 : m + 1 ≤ 11 := by omega
    have hdimN : daysInMonthJS y (m + 2) = monthLen y (m + 1) := by
      have h2 : m + 2 = (m + 1) + 1 := rfl
      rw [h2, daysInMonthJS_succ y (m + 1) hm1]
    have hmkN : mkDate y (m + 1) 1 = startDate + 1 + (monthLen y m - d) := by
      rw [mkDate_eq_ymdToAbs y (m + 1) 1 hm1, ymdToAbs_next_month y m, hlast]
      omega
    have hscan2 : scanMonth data y (m + 1) 1 (monthLen y (m + 1)) =
        (List.range' (startDate + 1 + (monthLen y m - d)) (monthLen y (m + 1))).find?
          (isOccupiedDate data) := by
      rw [scanMonth_eq_find? data y (m + 1) hm1 (monthLen y (m + 1)) (le_refl _)
        (monthLen y (m + 1)) 1 (by omega) (by omega)]
      rw [hmkN]
    have hwin : scanWindowEnd startDate = ymdToAbs y (m + 1) (monthLen y (m + 1)) := by
      show (if m < 11 then ymdToAbs y (m + 1) (monthLen y (m + 1)) else ymdToAbs y 11 31) = _
      rw [if_pos hm11]
    have hwd : scanWindowEnd startDate - startDate
        = monthLen y (m + 1) + (monthLen y m - d) := by
      rw [hwin]
      have hp := monthLen_pos y (m + 1)
      have hnext := ymdToAbs_add_day y (m + 1) 1 (monthLen y (m + 1) - 1) (le_refl 1)
      have h1' : 1 + (monthLen y (m + 1) - 1) = monthLen y (m + 1) := by omega
      rw [h1'] at hnext
      rw [hnext, ymdToAbs_next_month y m, hlast]
      omega
    rw [hwd, ← List.range'_append (startDate + 1) (monthLen y m - d) (monthLen y (m + 1)) 1]
    rw [List.find?_append]
    simp only [Nat.one_mul]
    rw [if_pos hm11, hdimN, hscan2]
    cases (List.range' (startDate + 1) (monthLen y m - d)).find? (isOccupiedDate data) with
    | some dd => rfl
    | none =>
      cases (List.range' (startDate + 1 + (monthLen y m - d)) (monthLen y (m + 1))).find?
          (isOccupiedDate data) with
      | some dd => rfl
      | none => rfl
  · have hwin : scanWindowEnd startDate = ymdToAbs y 11 31 := by
      show (if m < 11 then ymdToAbs y (m + 1) (monthLen y (m + 1)) else ymdToAbs y 11 31) = _
      rw [if_neg hm11]
    have hmeq : m = 11 := by omega
    have h31 : monthLen y m = 31 := by rw [hmeq]; exact monthLen_dec y
    have hwd : scanWindowEnd startDate - startDate = monthLen y m - d := by
      rw [hwin]
      have h11 : ymdToAbs y 11 31 = ymdToAbs y m (monthLen y m) := by
        rw [hmeq, monthLen_dec y]
      rw [h11, hlast]
      omega
    rw [hwd, if_neg hm11]
    cases (List.range' (startDate + 1) (monthLen y m - d)).find? (isOccupiedDate data) with
    | some dd => rfl
    | none => rfl

theorem mem_addToSet (s : List Nat) (d x : Nat) : x ∈ addToSet s d ↔ x ∈ s ∨ x = d := by
  unfold addToSet
  split
  · rename_i h
    have hd : d ∈ s := by simpa using h
    constructor
    · exact Or.inl
    · rintro (h1 | rfl)
      · exact h1
      · exact hd
  · simp

theorem mem_foldl_addToSet (l : List Nat) : ∀ (s : List Nat) (x : Nat),
    x ∈ l.foldl addToSet s ↔ x ∈ s ∨ x ∈ l := by
  induction l with
  | nil => intro s x; simp
  | cons a l ih =>
    intro s x
    show x ∈ l.foldl addToSet (addToSet s a) ↔ _
    rw [ih, mem_addToSet]
    simp only [List.mem_cons]
    tauto

theorem mem_availFold (rooms : List RoomRecord) : ∀ (s : List Nat) (x : Nat),
    x ∈ rooms.foldl
      (fun s room =>
        if false && room.roomNumber != 7 then s
        else if canAccommodate none room.roomNumber then room.availableDates.foldl addToSet s
        else s) s
      ↔ x ∈ s ∨ ∃ r, r ∈ rooms ∧ x ∈ r.availableDates := by
  induction rooms with
  | nil => intro s x; simp
  | cons a l ih =>
    intro s x
    have hred : (if false && a.roomNumber != 7 then s
        else if canAccommodate none a.roomNumber then a.availableDates.foldl addToSet s
        else s) = a.availableDates.foldl addToSet s := by
      simp [canAccommodate]
    show x ∈ l.foldl _ (if false && a.roomNumber != 7 then s
        else if canAccommodate none a.roomNumber then a.availableDates.foldl addToSet s
        else s) ↔ _
    rw [hred, ih, mem_foldl_addToSet]
    simp only [List.mem_cons]
    constructor
    · rintro ((h1 | h2) | ⟨r, hr, hx⟩)
      · exact Or.inl h1
      · exact Or.inr ⟨a, Or.inl rfl, h2⟩
      · exact Or.inr ⟨r, Or.inr hr, hx⟩
    · rintro (h1 | ⟨r, (rfl | hr), hx⟩)
      · exact Or.inl (Or.inl h1)
      · exact Or.inl (Or.inr hx)
      · exact Or.inr ⟨r, hr, hx⟩

theorem mem_availableDaySetForMonth (data : List RoomRecord) (y m x : Nat) :
    x ∈ availableDaySetForMonth data none false y m ↔
      ∃ r ∈ data, r.year = y ∧ r.month = m ∧ x ∈ r.availableDates := by
  unfold availableDaySetForMonth
  rw [mem_availFold]
  simp only [List.mem_filter, Bool.and_eq_true, beq_iff_eq, List.not_mem_nil, false_or]
  constructor
  · rintro ⟨r, ⟨hr, hy, hm⟩, hx⟩
    exact ⟨r, hr, hy, hm, hx⟩
  · rintro ⟨r, hr, hy, hm, hx⟩
    exact ⟨r, ⟨hr, hy, hm⟩, hx⟩

theorem hasAvailableRoom_iff (data : List RoomRecord) (y m day : Nat) :
    hasAvailableRoom data y m day = true ↔
      ∃ r ∈ data, r.year = y ∧ r.month = m ∧ day ∈ r.availableDates := by
  unfold hasAvailableRoom
  rw [List.any_eq_true]
  simp only [Bool.and_eq_true, beq_iff_eq]
  constructor
  · rintro ⟨r, hr, ⟨hy, hm⟩, hc⟩
    exact ⟨r, hr, hy, hm, by simpa using hc⟩
  · rintro ⟨r, hr, hy, hm, hc⟩
    exact ⟨r, hr, ⟨hy, hm⟩, by simpa using hc⟩

theorem mkDate_inj_day (y m a b : Nat) (ha : 1 ≤ a) (hb : 1 ≤ b)
    (h : mkDate y m a = mkDate y m b) : a = b := by
  unfold mkDate ymdToAbs at h
  omega

theorem not_contains_iff (s : List Nat) (d : Nat) : (!s.contains d) = true ↔ d ∉ s := by
  simp

theorem mem_getAvailableDatesForMonth (success : Bool) (err : Option String)
    (data : List RoomRecord) (y m day : Nat) (hday : 1 ≤ day)
    (hrec : ∀ r ∈ data, r.year = y → r.month = m → ∀ dd ∈ r.availableDates, 1 ≤ dd) :
    (mkDate y (m - 1) day ∈
        getAvailableDatesForMonth (some ⟨success, some data, err⟩) none false y m) ↔
      hasAvailableRoom data y m day = true := by
  show (mkDate y (m - 1) day ∈
      (availableDaySetForMonth data none false y m).map (fun dd => mkDate y (m - 1) dd)) ↔ _
  rw [List.mem_map, hasAvailableRoom_iff]
  constructor
  · rintro ⟨d', hd', heq⟩
    obtain ⟨r, hr, hy2, hm2, hx⟩ := (mem_availableDaySetForMonth data y m d').mp hd'
    have h1 : 1 ≤ d' := hrec r hr hy2 hm2 d' hx
    have heqd : d' = day := mkDate_inj_day y (m - 1) d' day h1 hday heq
    subst heqd
    exact ⟨r, hr, hy2, hm2, hx⟩
  · rintro ⟨r, hr, hy2, hm2, hx⟩
    exact ⟨day, (mem_availableDaySetForMonth data y m day).mpr ⟨r, hr, hy2, hm2, hx⟩, rfl⟩

theorem mem_getCompletelyOccupiedDatesForMonth (success : Bool) (err : Option String)
    (data : List RoomRecord) (y m day : Nat) (hday1 : 1 ≤ day)
    (hday2 : day ≤ daysInMonthJS y m) :
    (mkDate y (m - 1) day ∈
        getCompletelyOccupiedDatesForMonth (some ⟨success, some data, err⟩) false y m) ↔
      hasAvailableRoom data y m day = false := by
  show (mkDate y (m - 1) day ∈
      ((List.range' 1 (daysInMonthJS y m)).filter
        (fun dd => !(availableDaySetForMonth data none false y m).contains dd)).map
        (fun dd => mkDate y (m - 1) dd)) ↔ _
  rw [List.mem_map]
  constructor
  · rintro ⟨d', hd', heq⟩
    rw [List.mem_filter] at hd'
    obtain ⟨hrange, hnc⟩ := hd'
    have h1 : 1 ≤ d' := by
      have := List.mem_range'_1.mp hrange
      omega
    have heqd : d' = day := mkDate_inj_day y (m - 1) d' day h1 hday1 heq
    subst heqd
    rw [not_contains_iff] at hnc
    cases hav : hasAvailableRoom data y m d' with
    | false => rfl
    | true =>
      exfalso
      obtain ⟨r, hr, hy2, hm2, hx⟩ := (hasAvailableRoom_iff data y m d').mp hav
      exact hnc ((mem_availableDaySetForMonth data y m d').mpr ⟨r, hr, hy2, hm2, hx⟩)
  · intro hav
    refine ⟨day, ?_, rfl⟩
    rw [List.mem_filter]
    refine ⟨List.mem_range'_1.mpr ⟨hday1, by omega⟩, ?_⟩
    rw [not_contains_iff]
    intro hmem
    obtain ⟨r, hr, hy2, hm2, hx⟩ := (mem_availableDaySetForMonth data y m day).mp hmem
    have : hasAvailableRoom data y m day = true :=
      (hasAvailableRoom_iff data y m day).mpr ⟨r, hr, hy2, hm2, hx⟩
    rw [hav] at this
    cases this

theorem filter_map_subset {α β : Type} (l : List α) (f : α → β) (p q : α → Bool)
    (h : ∀ a, p a = true → q a = true) : (l.filter p).map f ⊆ (l.filter q).map f := by
  intro x hx
  rw [List.mem_map] at hx ⊢
  obtain ⟨a, ha, rfl⟩ := hx
  rw [List.mem_filter] at ha
  exact ⟨a, List.mem_filter.mpr ⟨ha.1, h a ha.2⟩, rfl⟩

theorem stayDatesList_subset_succ (f t : Nat) :
    ∀ sd ∈ stayDatesList f t, sd ∈ stayDatesList f (t + 1) := by
  intro sd hsd
  rw [mem_stayDatesList] at hsd ⊢
  obtain ⟨u, h1, h2, h3⟩ := hsd
  exact ⟨u, h1, by omega, h3⟩

theorem getRoomsForDateRange_closed_eq (success : Bool) (err : Option String)
    (data : List RoomRecord) (gi : Option GuestInfo) (mir : Bool) (f u : Nat) :
    getRoomsForDateRange (some ⟨success, some data, err⟩) gi mir (some ⟨some f, some u⟩) =
      ((data.foldl (fun acc room =>
          if mir && room.roomNumber != 7 then acc
          else mapSet acc room.roomNumber ⟨room.roomNumber, room.roomName⟩) []).filter
        (fun p =>
          (stayDatesList f u).all (fun stayDate =>
            match data.find? (fun room =>
                room.roomNumber == p.1 && room.year == stayDate.year
                  && room.month == stayDate.month) with
            | none => false
            | some roomDataForDate => roomDataForDate.availableDates.contains stayDate.day)
          && canAccommodate gi p.1)).map (fun p => p.2) := rfl

theorem mem_getAllDisabledDates_open (avail : Option AvailabilityResponse) (mir : Bool)
    (cm x t : Nat) (ht : t ∈ getAllDisabledDates avail mir cm (some ⟨some x, none⟩)) :
    t ≠ x ∧ t ≠ x + 1 ∧
      ∀ b, findFirstAllowedCheckoutDate avail x = some b → t ≠ b := by
  have ht2 : t ∈ (getCompletelyOccupiedDates avail mir cm
      ++ getSmartDisabledDates avail cm (some ⟨some x, none⟩)).filter
      (fun date => date != x && date != x + 1 &&
        (match findFirstAllowedCheckoutDate avail x with
         | some a => date != a
         | none => true)) := ht
  rw [List.mem_filter] at ht2
  obtain ⟨-, hcond⟩ := ht2
  rw [Bool.and_eq_true, Bool.and_eq_true] at hcond
  obtain ⟨⟨h1, h2⟩, h3⟩ := hcond
  refine ⟨by simpa using h1, by simpa using h2, ?_⟩
  intro b hb
  rw [hb] at h3
  simpa using h3

theorem findFirst_next_day_occupied (success : Bool) (err : Option String)
    (data : List RoomRecord) (f : Nat)
    (hocc : isOccupiedDate data (f + 1) = true)
    (hdec : ¬ (getMonth f = 11 ∧ getDate f = 31)) :
    findFirstAllowedCheckoutDate (some ⟨success, some data, err⟩) f = some (f + 1) := by
  rw [findFirstAllowedCheckoutDate_flat]
  obtain ⟨habs, hm, hd1, hd2⟩ := absToYmd_spec f
  have hmono : ∀ a b : Nat, 1 ≤ a → a ≤ b →
      ymdToAbs (absToYmd f).year (absToYmd f).month a
        ≤ ymdToAbs (absToYmd f).year (absToYmd f).month b := by
    intro a b h1 h2
    unfold ymdToAbs
    omega
  have hW : f + 1 ≤ scanWindowEnd f := by
    by_cases hm11 : (absToYmd f).month < 11
    · have hwin : scanWindowEnd f =
          ymdToAbs (absToYmd f).year ((absToYmd f).month + 1)
            (monthLen (absToYmd f).year ((absToYmd f).month + 1)) := by
        show (if (absToYmd f).month < 11 then _ else _) = _
        rw [if_pos hm11]
        rfl
      have hp := monthLen_pos (absToYmd f).year ((absToYmd f).month + 1)
      have h1 : ymdToAbs (absToYmd f).year ((absToYmd f).month + 1) 1
          ≤ ymdToAbs (absToYmd f).year ((absToYmd f).month + 1)
              (monthLen (absToYmd f).year ((absToYmd f).month + 1)) := by
        unfold ymdToAbs
        omega
      have h2 := ymdToAbs_next_month (absToYmd f).year (absToYmd f).month
      have h3 := hmono (absToYmd f).day
        (monthLen (absToYmd f).year (absToYmd f).month) hd1 hd2
      rw [habs] at h3
      omega
    · have hwin : scanWindowEnd f = ymdToAbs (absToYmd f).year 11 31 := by
        show (if (absToYmd f).month < 11 then _ else _) = _
        rw [if_neg hm11]
        rfl
      have hmeq : (absToYmd f).month = 11 := by omega
      have hdne : (absToYmd f).day ≠ 31 := by
        intro hd31
        exact hdec ⟨hmeq, hd31⟩
      have h31 : monthLen (absToYmd f).year (absToYmd f).month = 31 := by
        rw [hmeq]
        exact monthLen_dec (absToYmd f).year
      have h3 := hmono ((absToYmd f).day + 1) (monthLen (absToYmd f).year (absToYmd f).month)
        (by omega) (by omega)
      have h4 : ymdToAbs (absToYmd f).year (absToYmd f).month ((absToYmd f).day + 1)
          = f + 1 := by
        rw [ymdToAbs_succ_day _ _ _ hd1, habs]
      rw [h4] at h3
      rw [hwin, ← hmeq, ← h31]
      exact h3
  have hk : scanWindowEnd f - f = (scanWindowEnd f - f - 1) + 1 := by omega
  rw [hk, List.range'_succ, List.find?_cons_of_pos _ hocc]

theorem handleRangeSelect_closed_eq (avail : Option AvailabilityResponse)
    (sel : Option DateRange) (f t : Nat)
    (hsel : ∀ s, sel = some s → (s.fromDate.isSome && s.toDate.isSome) = false)
    (hneq : f ≠ t) :
    handleRangeSelect avail sel (some ⟨some f, some t⟩) =
      (if t - f < 1 then none
       else if decide (t - f > 1) && !isRangeValid avail f (t - 1) then none
       else some (some ⟨some f, some t⟩)) := by
  have hbeq : (f == t) = false := by simp [hneq]
  cases sel with
  | none =>
    show (if (f == t) = true then some (some (DateRange.mk (some f) none))
      else if t - f < 1 then none
        else if decide (t - f > 1) && !isRangeValid avail f (t - 1) then none
        else some (some (DateRange.mk (some f) (some t)))) = _
    rw [if_neg (by simp [hbeq])]
  | some s =>
    have hs : (s.fromDate.isSome && s.toDate.isSome) = false := hsel s rfl
    show (if (s.fromDate.isSome && s.toDate.isSome) = true then some none
      else if (f == t) = true then some (some (DateRange.mk (some f) none))
      else if t - f < 1 then none
        else if decide (t - f > 1) && !isRangeValid avail f (t - 1) then none
        else some (some (DateRange.mk (some f) (some t)))) = _
    rw [if_neg (by simp [hs]), if_neg (by simp [hbeq])]

/-! ### The claims -/

/-- Claim C1: for every non-null availability snapshot and every pair of dates
`checkIn < checkOut`, `isRangeValid(checkIn, checkOut)` returns true iff every
calendar date of the half-open interval `[checkIn, checkOut)` has at least one
room record matching that date's (year, month) whose `availableDates`
contains that day.  Party size is ignored: `isRangeValid` takes no guest
information at all. -/
theorem C1_isRangeValid_iff_every_stay_night_has_room (success : Bool)
    (err : Option String) (data : List RoomRecord) (checkIn checkOut : Nat)
    (_h : checkIn < checkOut) :
    isRangeValid (some ⟨success, some data, err⟩) checkIn checkOut = true ↔
      ∀ t : Nat, checkIn ≤ t → t < checkOut →
        hasAvailableRoom data (getFullYear t) (getMonth t + 1) (getDate t) = true :=
  isRangeValid_iff_forall success err data checkIn checkOut

/-- Witness for C1: a one-record snapshot covering January 1 of year 1
(absolute day 366), with `checkIn` that day and `checkOut` the next. -/
theorem C1_witness :
    (366 : Nat) < 367 ∧
      (isRangeValid (some ⟨true, some [⟨1, "Кімната 1", [1], [], 1, 1, some "t"⟩], none⟩)
          366 367 = true ↔
        ∀ t : Nat, 366 ≤ t → t < 367 →
          hasAvailableRoom [⟨1, "Кімната 1", [1], [], 1, 1, some "t"⟩]
            (getFullYear t) (getMonth t + 1) (getDate t) = true) :=
  ⟨by decide, C1_isRangeValid_iff_every_stay_night_has_room true none
    [⟨1, "Кімната 1", [1], [], 1, 1, some "t"⟩] 366 367 (by decide)⟩

/-- Counterexample to claim C2 as stated: check-in on absolute day 730
(December 31 of year 1).  The day after check-in, 731 (January 1 of year 2,
the first day of the following month and well inside the two-month window),
is completely occupied — the snapshot contains no rooms at all — yet
`findFirstAllowedCheckoutDate` returns `null` instead of that date, because
the source guards the second scan with `startMonth < 11` and never rolls the
year over for a December check-in. -/
theorem C2_counterexample :
    getMonth 730 = 11 ∧ getDate 730 = 31 ∧
      isOccupiedDate [] (730 + 1) = true ∧
      findFirstAllowedCheckoutDate (some ⟨true, some [], none⟩) 730 = none := by
  decide

/-- Claim C2, amended: `findFirstAllowedCheckoutDate` equals a day-by-day
forward scan starting the day after check-in and returning the first
completely occupied date; the scan window ends with the month following the
check-in month except that for a December check-in the window is only the
remainder of December (the source never crosses a year boundary); `none` is
returned exactly when no date of the window is completely occupied. -/
theorem C2_findFirstAllowedCheckoutDate_scans_window (success : Bool)
    (err : Option String) (data : List RoomRecord) (startDate : Nat) :
    findFirstAllowedCheckoutDate (some ⟨success, some data, err⟩) startDate =
      (List.range' (startDate + 1) (scanWindowEnd startDate - startDate)).find?
        (isOccupiedDate data) :=
  findFirstAllowedCheckoutDate_flat success err data startDate

/-- Claim C10: for every non-null snapshot, a checkout on or before the
check-in yields an empty stay-date decomposition, so `isRangeValid` holds
vacuously; in particular `isRangeValid(d, d) = true`. -/
theorem C10_empty_range_vacuously_valid (success : Bool) (err : Option String)
    (data : List RoomRecord) (s e : Nat) (h : e ≤ s) :
    isRangeValid (some ⟨success, some data, err⟩) s e = true :=
  isRangeValid_of_le success err data s e h

/-- Witness for C10: the degenerate range `(5, 5)` on an empty (but
non-null) snapshot validates. -/
theorem C10_witness :
    (5 : Nat) ≤ 5 ∧ isRangeValid (some ⟨true, some [], none⟩) 5 5 = true :=
  ⟨by decide, C10_empty_range_vacuously_valid true none [] 5 5 (by decide)⟩

/-- Counterexample to claim C9 as stated: with a closed selection
`(5, 6)`, a re-click event at day 7 does not restart selection at the
clicked date (which would give `Open(7)`, i.e. `{from: 7, to: undefined}`);
the handler resets to `Empty` and consumes the pick. -/
theorem C9_counterexample :
    handleRangeSelect (some ⟨true, some [], none⟩) (some ⟨some 5, some 6⟩)
        (some ⟨some 7, some 7⟩) ≠ some (some ⟨some 7, none⟩) ∧
      handleRangeSelect (some ⟨true, some [], none⟩) (some ⟨some 5, some 6⟩)
        (some ⟨some 7, some 7⟩) = some none := by
  decide

/-- Claim C9, amended: from a closed range, any pick (any raw event, even a
cleared one) transitions the selection to `Empty` and invokes the callback
with `undefined`; the pick is consumed, not re-evaluated — restarting
selection at the clicked date requires a further click. -/
theorem C9_pick_while_closed_resets_to_empty (avail : Option AvailabilityResponse)
    (f t : Nat) (r : Option DateRange) :
    handleRangeSelect avail (some ⟨some f, some t⟩) r = some none := by
  cases r with
  | none => rfl
  | some rr => rfl

/-- Claim C8: from `Empty` or `Open(x)`, a picker event with `from` and `to`
denoting the same instant is normalised to a fresh open pick: the new state
is `Open(d)` and the callback receives `{from: d, to: undefined}` (the
returned `some (some ⟨some d, none⟩)` means exactly that `setSelectedRange`
and `onRangeSelect` fire with that value). -/
theorem C8_same_instant_pick_normalizes_to_open (avail : Option AvailabilityResponse)
    (sel : Option DateRange) (d : Nat)
    (hsel : sel = none ∨ ∃ x : Nat, sel = some ⟨some x, none⟩) :
    handleRangeSelect avail sel (some ⟨some d, some d⟩) = some (some ⟨some d, none⟩) := by
  rcases hsel with rfl | ⟨x, rfl⟩ <;> simp [handleRangeSelect]

/-- Witness for C8: re-clicking the open check-in day 366 itself emits
`{from: 366, to: 366}` and the state stays `Open(366)` (spec scenario D). -/
theorem C8_witness :
    ((some ⟨some 366, none⟩ : Option DateRange) = none ∨
        ∃ x : Nat, (some ⟨some 366, none⟩ : Option DateRange) = some ⟨some x, none⟩) ∧
      handleRangeSelect (some ⟨true, some [], none⟩) (some ⟨some 366, none⟩)
        (some ⟨some 366, some 366⟩) = some (some ⟨some 366, none⟩) :=
  ⟨Or.inr ⟨366, rfl⟩, C8_same_instant_pick_normalizes_to_open _ _ 366 (Or.inr ⟨366, rfl⟩)⟩

/-- Claim C3: with no party-size filter and no Mirador restriction, and with
every matching record's day numbers within `[1, daysInMonth]`, the day
numbers of `getAvailableDatesForMonth` and of
`getCompletelyOccupiedDatesForMonth` partition `[1, daysInMonth]`: a day of
the month lies in the available set iff some record matching `(year, month)`
lists it in `availableDates`, and in the occupied set iff no such record
does — so every day of the month is in exactly one of the two sets. -/
theorem C3_available_occupied_partition (success : Bool) (err : Option String)
    (data : List RoomRecord) (y m day : Nat) (_hm1 : 1 ≤ m)
    (hday1 : 1 ≤ day) (hday2 : day ≤ daysInMonthJS y m)
    (hrec : ∀ r ∈ data, r.year = y → r.month = m → ∀ dd ∈ r.availableDates,
      1 ≤ dd ∧ dd ≤ daysInMonthJS y m) :
    (mkDate y (m - 1) day ∈
        getAvailableDatesForMonth (some ⟨success, some data, err⟩) none false y m
      ↔ hasAvailableRoom data y m day = true)
    ∧ (mkDate y (m - 1) day ∈
        getCompletelyOccupiedDatesForMonth (some ⟨success, some data, err⟩) false y m
      ↔ hasAvailableRoom data y m day = false) := by
  constructor
  · exact mem_getAvailableDatesForMonth success err data y m day hday1
      (fun r hr hy2 hm2 dd hdd => (hrec r hr hy2 hm2 dd hdd).1)
  · exact mem_getCompletelyOccupiedDatesForMonth success err data y m day hday1 hday2

/-- Witness for C3: January of year 1 with one room available on day 1:
day 1 is in the available set and, being listed, not in the occupied set. -/
theorem C3_witness :
    (1 : Nat) ≤ 1 ∧ (1 : Nat) ≤ 1 ∧ (1 : Nat) ≤ daysInMonthJS 1 1 ∧
      (∀ r ∈ [(⟨1, "Кімната 1", [1], [], 1, 1, some "t"⟩ : RoomRecord)],
        r.year = 1 → r.month = 1 → ∀ dd ∈ r.availableDates,
          1 ≤ dd ∧ dd ≤ daysInMonthJS 1 1) ∧
      ((mkDate 1 0 1 ∈
          getAvailableDatesForMonth
            (some ⟨true, some [⟨1, "Кімната 1", [1], [], 1, 1, some "t"⟩], none⟩)
            none false 1 1
        ↔ hasAvailableRoom [⟨1, "Кімната 1", [1], [], 1, 1, some "t"⟩] 1 1 1 = true)
      ∧ (mkDate 1 0 1 ∈
          getCompletelyOccupiedDatesForMonth
            (some ⟨true, some [⟨1, "Кімната 1", [1], [], 1, 1, some "t"⟩], none⟩)
            false 1 1
        ↔ hasAvailableRoom [⟨1, "Кімната 1", [1], [], 1, 1, some "t"⟩] 1 1 1 = false)) :=
  ⟨by decide, by decide, by decide, by decide,
    C3_available_occupied_partition true none
      [⟨1, "Кімната 1", [1], [], 1, 1, some "t"⟩] 1 1 1
      (by decide) (by decide) (by decide) (by decide)⟩

/-- Counterexample to claim C4 as stated: for check-in D = absolute day 730
(December 31 of year 1) on an empty (but non-null) snapshot, day D + 1 is
completely occupied, yet `findFirstAllowedCheckoutDate(D)` returns `null`
rather than D + 1: the boundary scan never crosses the year boundary out of
December. -/
theorem C4_counterexample :
    isOccupiedDate [] (730 + 1) = true ∧
      findFirstAllowedCheckoutDate (some ⟨true, some [], none⟩) 730
        ≠ some (730 + 1) ∧
      findFirstAllowedCheckoutDate (some ⟨true, some [], none⟩) 730 = none := by
  decide

/-- Claim C4, amended: while a range is open on a non-null snapshot, the
disabled-date set returned by `getAllDisabledDates` never contains the
check-in date, the day after check-in, or the computed first-allowed-checkout
boundary; and for a check-in D whose next day is completely occupied,
`findFirstAllowedCheckoutDate` returns D + 1 — provided D is not a December
31, the one case where the boundary scan (which never crosses a year
boundary) misses the occupied day. -/
theorem C4_disabled_excludes_carveouts_and_boundary (success : Bool)
    (err : Option String) (data : List RoomRecord) (f : Nat)
    (hocc : isOccupiedDate data (f + 1) = true)
    (hdec : ¬ (getMonth f = 11 ∧ getDate f = 31)) :
    (∀ (mir : Bool) (cm x t : Nat),
      t ∈ getAllDisabledDates (some ⟨success, some data, err⟩) mir cm
          (some ⟨some x, none⟩) →
        t ≠ x ∧ t ≠ x + 1 ∧
          ∀ b, findFirstAllowedCheckoutDate (some ⟨success, some data, err⟩) x
              = some b → t ≠ b)
    ∧ findFirstAllowedCheckoutDate (some ⟨success, some data, err⟩) f
        = some (f + 1) := by
  refine ⟨?_, findFirst_next_day_occupied success err data f hocc hdec⟩
  intro mir cm x t ht
  exact mem_getAllDisabledDates_open _ mir cm x t ht

/-- Witness for C4: check-in on January 1 of year 1 (absolute day 366) with
an empty snapshot; day 367 is completely occupied, the boundary is 367, and
e.g. the disabled date 368 is indeed none of the three carved-out dates. -/
theorem C4_witness :
    isOccupiedDate [] (366 + 1) = true ∧
      ¬ (getMonth 366 = 11 ∧ getDate 366 = 31) ∧
      ((∀ (mir : Bool) (cm x t : Nat),
        t ∈ getAllDisabledDates (some ⟨true, some [], none⟩) mir cm
            (some ⟨some x, none⟩) →
          t ≠ x ∧ t ≠ x + 1 ∧
            ∀ b, findFirstAllowedCheckoutDate (some ⟨true, some [], none⟩) x
                = some b → t ≠ b)
      ∧ findFirstAllowedCheckoutDate (some ⟨true, some [], none⟩) 366
          = some (366 + 1)) :=
  ⟨by decide, by decide,
    C4_disabled_excludes_carveouts_and_boundary true none [] 366
      (by decide) (by decide)⟩

/-- Counterexample to claim C5 as stated: when the snapshot is null, a
single-night pick is still accepted as a closed range (the validity check is
bypassed), yet `isRangeValid(from, to - 1 day)` is false — a null snapshot
fails every validity query.  So not every accepted closed range passes
`isRangeValid`. -/
theorem C5_counterexample :
    handleRangeSelect none (some ⟨some 3, none⟩) (some ⟨some 3, some 4⟩)
        = some (some ⟨some 3, some 4⟩) ∧
      isRangeValid none 3 (4 - 1) = false := by
  decide

/-- Claim C5, amended: on a non-null snapshot, every closed range accepted by
the pick handler passes `isRangeValid(from, to - 1 day)` (for a single night
this holds vacuously), and acceptance of a pick `(f, t)` with `f ≠ t` from a
not-yet-closed state is characterised exactly as: single-night picks
(`t = f + 1`) are accepted unconditionally — the validity check is bypassed —
while multi-night picks are accepted iff the stay period excluding the
checkout night passes `isRangeValid`.  (On a null snapshot the first part
fails: see the counterexample.) -/
theorem C5_accepted_closed_range_valid (success : Bool) (err : Option String)
    (data : List RoomRecord) (sel : Option DateRange) (f t : Nat)
    (hsel : ∀ s, sel = some s → (s.fromDate.isSome && s.toDate.isSome) = false)
    (hneq : f ≠ t) :
    (handleRangeSelect (some ⟨success, some data, err⟩) sel (some ⟨some f, some t⟩)
        = some (some ⟨some f, some t⟩)
      ↔ t = f + 1 ∨ (f + 1 < t ∧
          isRangeValid (some ⟨success, some data, err⟩) f (t - 1) = true))
    ∧ (handleRangeSelect (some ⟨success, some data, err⟩) sel (some ⟨some f, some t⟩)
        = some (some ⟨some f, some t⟩)
      → isRangeValid (some ⟨success, some data, err⟩) f (t - 1) = true) := by
  rw [handleRangeSelect_closed_eq _ sel f t hsel hneq]
  by_cases h1 : t - f < 1
  · rw [if_pos h1]
    refine ⟨⟨(fun h => nomatch h), fun h => ?_⟩, (fun h => nomatch h)⟩
    rcases h with h | ⟨h, _⟩ <;> omega
  · rw [if_neg h1]
    by_cases h2 : t - f > 1
    · by_cases hv : isRangeValid (some ⟨success, some data, err⟩) f (t - 1) = true
      · have hc : (decide (t - f > 1)
            && !isRangeValid (some ⟨success, some data, err⟩) f (t - 1)) = false := by
          rw [hv]
          simp
        rw [if_neg (by simp [hc])]
        exact ⟨⟨(fun _ => Or.inr ⟨by omega, hv⟩), (fun _ => rfl)⟩, (fun _ => hv)⟩
      · have hvf : isRangeValid (some ⟨success, some data, err⟩) f (t - 1) = false :=
          Bool.not_eq_true _ ▸ Bool.eq_false_iff.mpr hv
        have hc : (decide (t - f > 1)
            && !isRangeValid (some ⟨success, some data, err⟩) f (t - 1)) = true := by
          rw [hvf]
          simp [h2]
        rw [if_pos hc]
        refine ⟨⟨(fun h => nomatch h), fun h => ?_⟩, (fun h => nomatch h)⟩
        rcases h with h | ⟨h3, h4⟩
        · omega
        · exact absurd h4 hv
    · have hc : (decide (t - f > 1)
          && !isRangeValid (some ⟨success, some data, err⟩) f (t - 1)) = false := by
        have hd : decide (t - f > 1) = false := by
          simp
          omega
        rw [hd]
        simp
      rw [if_neg (by simp [hc])]
      have hval : isRangeValid (some ⟨success, some data, err⟩) f (t - 1) = true := by
        apply isRangeValid_of_le
        omega
      exact ⟨⟨(fun _ => Or.inl (by omega)), (fun _ => rfl)⟩, (fun _ => hval)⟩

/-- Witness for C5: from the empty state on an empty (non-null) snapshot, the
single-night pick `(3, 4)` is accepted, matching the characterisation. -/
theorem C5_witness :
    (∀ s : DateRange, (none : Option DateRange) = some s →
        (s.fromDate.isSome && s.toDate.isSome) = false) ∧
      (3 : Nat) ≠ 4 ∧
      ((handleRangeSelect (some ⟨true, some [], none⟩) none (some ⟨some 3, some 4⟩)
          = some (some ⟨some 3, some 4⟩)
        ↔ (4 : Nat) = 3 + 1 ∨ ((3 : Nat) + 1 < 4 ∧
            isRangeValid (some ⟨true, some [], none⟩) 3 (4 - 1) = true))
      ∧ (handleRangeSelect (some ⟨true, some [], none⟩) none (some ⟨some 3, some 4⟩)
          = some (some ⟨some 3, some 4⟩)
        → isRangeValid (some ⟨true, some [], none⟩) 3 (4 - 1) = true)) :=
  ⟨(fun s h => nomatch h), (by decide),
    C5_accepted_closed_range_valid true none [] none 3 4
      (fun s h => nomatch h) (by decide)⟩

/-- Counterexample to claim C6 as stated: after a failed fetch the snapshot
is null, and `getCompletelyOccupiedDatesForMonth` then returns the EMPTY
list — not every day of the month (January of year 1 has 31 days, none of
which is reported occupied).  The code fails open for the occupied set, not
closed. -/
theorem C6_counterexample :
    fetchMonthlyAvailability (Except.error "network failure") = none ∧
      getCompletelyOccupiedDatesForMonth
        (fetchMonthlyAvailability (Except.error "network failure")) false 1 1 = [] ∧
      daysInMonthJS 1 1 = 31 := by
  decide

/-- Claim C6, amended: when the fetch fails (network error, non-ok status, or
non-success payload) the stored snapshot is null, and the affected months
resolve to zero available dates AND zero occupied dates — both
`getAvailableDatesForMonth` and `getCompletelyOccupiedDatesForMonth` return
the empty list (not an all-days-occupied list).  No exception propagates:
`fetchMonthlyAvailability` is total and lands in the null-snapshot state. -/
theorem C6_failed_fetch_yields_null_snapshot_and_empty_sets
    (result : Except String FetchResponse)
    (hfail : ∀ resp, result = Except.ok resp →
      resp.ok = false ∨ resp.body.success = false)
    (gi : Option GuestInfo) (mir : Bool) (y m : Nat) :
    fetchMonthlyAvailability result = none ∧
      getAvailableDatesForMonth (fetchMonthlyAvailability result) gi mir y m = [] ∧
      getCompletelyOccupiedDatesForMonth (fetchMonthlyAvailability result) mir y m
        = [] := by
  have hnone : fetchMonthlyAvailability result = none := by
    cases result with
    | error e => rfl
    | ok resp =>
      have hr := hfail resp rfl
      show (if !resp.ok || !resp.body.success then none else some resp.body) = none
      rcases hr with h | h <;> simp [h]
  refine ⟨hnone, ?_, ?_⟩ <;> rw [hnone] <;> rfl

/-- Witness for C6: a plain network failure. -/
theorem C6_witness :
    (∀ resp : FetchResponse,
        (Except.error "network failure" : Except String FetchResponse)
          = Except.ok resp → resp.ok = false ∨ resp.body.success = false) ∧
      (fetchMonthlyAvailability (Except.error "network failure") = none ∧
        getAvailableDatesForMonth
          (fetchMonthlyAvailability (Except.error "network failure")) none false 1 1
          = [] ∧
        getCompletelyOccupiedDatesForMonth
          (fetchMonthlyAvailability (Except.error "network failure")) false 1 1
          = []) :=
  ⟨(fun _ h => nomatch h),
    C6_failed_fetch_yields_null_snapshot_and_empty_sets
      (Except.error "network failure") (fun _ h => nomatch h) none false 1 1⟩

/-- Claim C7: `getRoomsForDateRange` is monotonically non-increasing in the
stay range: for every snapshot, guest info, Mirador flag and closed range,
adding one night yields an eligible-room list that is a sublist-set of the
original one — a night can only remove rooms from eligibility, never add.
(An open range behaves as the one-night range to `from + 1`, so this covers
it as well.) -/
theorem C7_eligible_rooms_antitone (avail : Option AvailabilityResponse)
    (gi : Option GuestInfo) (mir : Bool) (f t : Nat) :
    getRoomsForDateRange avail gi mir (some ⟨some f, some (t + 1)⟩) ⊆
      getRoomsForDateRange avail gi mir (some ⟨some f, some t⟩) := by
  cases avail with
  | none => intro x hx; exact hx
  | some resp =>
    obtain ⟨su, dataOpt, er⟩ := resp
    cases dataOpt with
    | none => intro x hx; exact hx
    | some data =>
      rw [getRoomsForDateRange_closed_eq, getRoomsForDateRange_closed_eq]
      apply filter_map_subset
      intro a ha
      rw [Bool.and_eq_true] at ha
      rw [Bool.and_eq_true]
      refine ⟨?_, ha.2⟩
      have hall := ha.1
      rw [List.all_eq_true] at hall
      rw [List.all_eq_true]
      intro sd hsd
      exact hall sd (stayDatesList_subset_succ f t sd hsd)

end HotelBooking
